import Mathlib

/-!
# Verification of the HAP-NodeJS `Characteristic` core

Shallow embedding of `src/lib/Characteristic.ts` (value validation/coercion,
subscription counting, get/set negotiation, wire projection, serialization),
together with theorems settling the frozen claims about that code.

Modelling conventions:
* JavaScript numbers are modelled as exact rationals (`ℚ`).  `NaN` never
  arises as a first-class value in the modelled paths; where the source can
  produce `NaN` transiently (`parseInt` of a non-numeric value inside
  `toHAP`) the wire-value type has an explicit `nan` constructor.
* JavaScript strings are modelled as their UTF-8 byte sequences
  (`List Nat`); `Buffer.from(s, "utf8")` is then the identity and
  `buf.toString("utf8", 0, 256)` is WHATWG decoding of the first 256
  bytes with U+FFFD replacement of ill-formed subparts, re-encoded
  (`utf8Repair` composed with `List.take 256`) — so a 256-byte cut that
  splits a multi-byte character yields the repaired string, exactly as
  Node does, not the raw byte prefix.
* `null` and `undefined` are collapsed into a single `JSValue.null`; the
  source only ever distinguishes them through loose (`==`) comparisons,
  which treat them alike.
* `decimal.js` arithmetic (`Decimal.mod` / `minus` / `toFixed`) is exact
  decimal arithmetic; it is modelled by exact rational arithmetic with a
  truncated-division remainder, which agrees with it on decimal inputs.
-/

namespace HapNodeJS

/-- The `Formats` const enum of `Characteristic.ts`. -/
inductive Formats
  | bool
  | int
  | float
  | string
  | uint8
  | uint16
  | uint32
  | uint64
  | data
  | tlv8
  | array
  | dict
deriving DecidableEq, Repr

/-- The `Units` const enum of `Characteristic.ts`. -/
inductive Units
  | celsius
  | percentage
  | arcdegrees
  | lux
  | seconds
deriving DecidableEq, Repr

/-- The `Perms` const enum of `Characteristic.ts`.  The deprecated
`READ`/`WRITE` members share the strings `pr`/`pw` with
`PAIRED_READ`/`PAIRED_WRITE`, so the enum has seven distinct values. -/
inductive Perms
  | pr
  | pw
  | ev
  | aa
  | tw
  | hd
  | wr
deriving DecidableEq, Repr

/-- A JavaScript primitive value as it flows through the characteristic
core.  Strings carry their UTF-8 bytes.  `null` also stands for
`undefined` (see the file header). -/
inductive JSValue
  | null
  | bool (b : Bool)
  | num (q : ℚ)
  | str (s : List Nat)
deriving DecidableEq, Repr

/-- `CharacteristicProps` from the source.  `format` is an `Option`
because the no-argument constructor initialises it with `null`.
`adminOnlyAccess` is never read by the verified operations and is
omitted.  `maxLen`/`maxDataLen` are used as non-negative character
counts by the source and are modelled as `Nat`. -/
structure CharacteristicProps where
  format : Option Formats
  perms : List Perms
  unit : Option Units := none
  description : Option String := none
  minValue : Option ℚ := none
  maxValue : Option ℚ := none
  minStep : Option ℚ := none
  maxLen : Option Nat := none
  maxDataLen : Option Nat := none
  validValues : Option (List ℚ) := none
  validValueRanges : Option (ℚ × ℚ) := none
deriving DecidableEq, Repr

/-! ## JavaScript value-conversion helpers -/

/-- ASCII decimal digit test. -/
def isDigit (c : Nat) : Bool := 48 ≤ c && c ≤ 57

/-- ASCII whitespace test (space, tab, LF, CR). -/
def isSpace (c : Nat) : Bool := c = 32 || c = 9 || c = 10 || c = 13

/-- Digits to a natural number, most significant first. -/
def digitsToNat : List Nat → Nat → Nat
  | [], acc => acc
  | c :: rest, acc => digitsToNat rest (acc * 10 + (c - 48))

/-- Take the longest prefix of decimal digits. -/
def takeDigits : List Nat → List Nat × List Nat
  | [] => ([], [])
  | c :: rest =>
    if isDigit c then
      let (ds, rest') := takeDigits rest
      (c :: ds, rest')
    else ([], c :: rest)

/-- Parse an optional sign; returns the sign (`1` or `-1`) and the rest. -/
def takeSign : List Nat → ℤ × List Nat
  | [] => (1, [])
  | c :: rest =>
    if c = 45 then (-1, rest)
    else if c = 43 then (1, rest)
    else (1, c :: rest)

/-- JavaScript `parseInt(s, 10)` on a string: skip leading whitespace,
optional sign, then the longest run of decimal digits; `none` when no
digit is found (the `NaN` case). -/
def parseIntStr (s : List Nat) : Option ℤ :=
  let s1 := s.dropWhile (fun c => isSpace c)
  let (sign, s2) := takeSign s1
  let (ds, _) := takeDigits s2
  if ds.isEmpty then none else some (sign * (digitsToNat ds 0 : ℤ))

/-- JavaScript `parseFloat(s)` on a string: like `parseIntStr` but also
consumes an optional fractional part.  (Exponents are not modelled;
no verified path depends on them.) -/
def parseFloatStr (s : List Nat) : Option ℚ :=
  let s1 := s.dropWhile (fun c => isSpace c)
  let (sign, s2) := takeSign s1
  let (ds, s3) := takeDigits s2
  if ds.isEmpty then none
  else
    let intPart : ℚ := (digitsToNat ds 0 : ℚ)
    let frac : ℚ :=
      match s3 with
      | 46 :: rest =>
        let (fs, _) := takeDigits rest
        (digitsToNat fs 0 : ℚ) / (10 : ℚ) ^ fs.length
      | _ => 0
    some ((sign : ℚ) * (intPart + frac))

/-- JavaScript `ToNumber` on a string (used by relational and loose-equality
comparisons): whitespace-only is `0`; otherwise a decimal literal with
optional sign and fraction; `none` is `NaN`.  (Hex and exponent forms are
not modelled; no verified path depends on them.) -/
def strToNum (s : List Nat) : Option ℚ :=
  let s1 := (s.dropWhile (fun c => isSpace c)).reverse.dropWhile (fun c => isSpace c) |>.reverse
  if s1.isEmpty then some 0
  else
    let (sign, s2) := takeSign s1
    let (ds, s3) := takeDigits s2
    match s3 with
    | [] => if ds.isEmpty then none else some ((sign : ℚ) * (digitsToNat ds 0 : ℚ))
    | 46 :: rest =>
      let (fs, s4) := takeDigits rest
      if s4.isEmpty && !(ds.isEmpty && fs.isEmpty) then
        some ((sign : ℚ) * ((digitsToNat ds 0 : ℚ) + (digitsToNat fs 0 : ℚ) / (10 : ℚ) ^ fs.length))
      else none
    | _ => none

/-- JavaScript `ToNumber` on a primitive (`none` is `NaN`). -/
def jsToNum : JSValue → Option ℚ
  | .null => some 0
  | .bool b => some (if b then 1 else 0)
  | .num q => some q
  | .str s => strToNum s

/-- JavaScript `ToBoolean` (truthiness). -/
def jsTruthy : JSValue → Bool
  | .null => false
  | .bool b => b
  | .num q => q != 0
  | .str s => !s.isEmpty

/-- JavaScript loose equality `v == true`: `true` converts to the number
`1`, so the test holds exactly when `ToNumber v = 1` for numbers and
strings, when `v` is `true` itself, and never for `null`/`undefined`. -/
def jsEqTrue : JSValue → Bool
  | .null => false
  | .bool b => b
  | .num q => q == 1
  | .str s => strToNum s == some 1

/-- `isNaN(Number.parseInt(v, 10))`: `parseInt` first converts its argument
to a string.  Every finite number prints with a leading digit or sign, so
numbers always parse; `null`/`undefined`/booleans print as words and do
not. -/
def parseIntIsNaN : JSValue → Bool
  | .null => true
  | .bool _ => true
  | .num _ => false
  | .str s => (parseIntStr s).isNone

/-- `parseFloat(v)` for a value already known to pass the `parseInt` guard
(a number, or a string with a leading integer part).  The `0` fallback for
other shapes is unreachable in the guarded call sites. -/
def jsParseFloat : JSValue → ℚ
  | .num q => q
  | .str s => (parseFloatStr s).getD 0
  | _ => 0

/-- JavaScript `v < m` for a number bound `m` (comparison through
`ToNumber`; `false` when the conversion is `NaN`). -/
def jsLtNum (v : JSValue) (m : ℚ) : Bool :=
  match jsToNum v with
  | some q => q < m
  | none => false

/-- JavaScript `v > M` for a number bound `M`. -/
def jsGtNum (v : JSValue) (M : ℚ) : Bool :=
  match jsToNum v with
  | some q => M < q
  | none => false

/-- Truncation toward zero, as performed by `decimal.js` truncated
division and by `parseInt` applied to a printed number. -/
def jsTrunc (q : ℚ) : ℤ := if 0 ≤ q then ⌊q⌋ else ⌈q⌉

/-- `Decimal.mod`: the truncated-division remainder (sign of the
dividend), which is what `decimalVal.mod(minStep_resolved)` computes. -/
def jsModQ (x s : ℚ) : ℚ := x - s * (jsTrunc (x / s) : ℚ)

/-- The step-quantization of `validateValue`:
`decimalVal.minus(decimalVal.mod(minStep))`, followed by `toFixed` at the
step's declared decimal count.  The subtraction result is an exact
multiple of the step, so for decimal steps `toFixed` is exact and the
composite is just `x - (x mod s)`. -/
def quantize (x s : ℚ) : ℚ := x - jsModQ x s

/-! ## Effective numeric constraints -/

/-- Truthiness of an optional numeric property (`this.props.maxValue && ...`):
a declared `0` is falsy and therefore does not override the default. -/
def optTruthy : Option ℚ → Bool
  | some q => q != 0
  | none => false

/-- Format-family default minimum (`minValue_resolved` initialisation). -/
def defaultMin : Formats → Option ℚ
  | .int => some (-2147483648)
  | .float => none
  | .uint8 => some 0
  | .uint16 => some 0
  | .uint32 => some 0
  | .uint64 => some 0
  | _ => none

/-- Format-family default maximum (`maxValue_resolved` initialisation).
The `uint64` literal `18446744073709551615` is kept exact here; as an
IEEE double in the source it actually denotes `2^64`, which no claim
depends on. -/
def defaultMax : Formats → Option ℚ
  | .int => some 2147483647
  | .float => none
  | .uint8 => some 255
  | .uint16 => some 65535
  | .uint32 => some 4294967295
  | .uint64 => some 18446744073709551615
  | _ => none

/-- Format-family default step (`minStep_resolved` initialisation). -/
def defaultStep : Formats → Option ℚ
  | .int => some 1
  | .float => none
  | .uint8 => some 1
  | .uint16 => some 1
  | .uint32 => some 1
  | .uint64 => some 1
  | _ => none

/-- The numeric formats (`isNumericType = true` branches). -/
def isNumericFormat : Formats → Bool
  | .int => true
  | .float => true
  | .uint8 => true
  | .uint16 => true
  | .uint32 => true
  | .uint64 => true
  | _ => false

/-- Effective minimum: the declared `minValue` when truthy (and not `NaN`,
which cannot arise for a rational), else the format default. -/
def resolvedMin (f : Formats) (p : CharacteristicProps) : Option ℚ :=
  if optTruthy p.minValue then p.minValue else defaultMin f

/-- Effective maximum, resolved like `resolvedMin`. -/
def resolvedMax (f : Formats) (p : CharacteristicProps) : Option ℚ :=
  if optTruthy p.maxValue then p.maxValue else defaultMax f

/-- Effective step, resolved like `resolvedMin`. -/
def resolvedStep (f : Formats) (p : CharacteristicProps) : Option ℚ :=
  if optTruthy p.minStep then p.minStep else defaultStep f

/-! ## `validateValue` -/

/-- The clamp `if (newValue < minValue_resolved) newValue = minValue_resolved`.
An absent bound compares as `undefined`, which is always `false`. -/
def clampMinJS (lo : Option ℚ) (v : JSValue) : JSValue :=
  match lo with
  | some m => if jsLtNum v m then .num m else v
  | none => v

/-- The clamp `if (newValue > maxValue_resolved) newValue = maxValue_resolved`. -/
def clampMaxJS (hi : Option ℚ) (v : JSValue) : JSValue :=
  match hi with
  | some M => if jsGtNum v M then .num M else v
  | none => v

/-- `Array.prototype.includes` on a number array (SameValueZero: only a
number member can match). -/
def includesNum (v : JSValue) (l : List ℚ) : Bool :=
  match v with
  | .num q => l.contains q
  | _ => false

/-- The body of the numeric branch of `validateValue` (lines 741–780 of
the source) after the resolved constraint locals have been computed:
min/max clamping, step quantization, `validValues` membership, the
`validValueRanges` second clamp, and the final
`newValue == undefined ? null : newValue` collapse.  A rejected
`validValues` membership returns `prev` directly. -/
def numericCore (minR maxR stepR : Option ℚ) (vv : Option (List ℚ))
    (vvr : Option (ℚ × ℚ)) (newValue prev : JSValue) : JSValue :=
  let v1 := clampMinJS minR newValue
  let v2 := clampMaxJS maxR v1
  let v3 : JSValue :=
    match stepR with
    | some s => .num (quantize (jsParseFloat v2) s)
    | none => v2
  let keep : Bool :=
    match vv with
    | some l => includesNum v3 l
    | none => true
  if keep then
    let v4 :=
      match vvr with
      | some (a, b) =>
        let u := if jsLtNum v3 a then JSValue.num a else v3
        if jsGtNum u b then JSValue.num b else u
      | none => v3
    if v4 = .null then .null else v4
  else prev

/-- The numeric branch of `validateValue` (lines 731–781 of the source):
`false`/`true` inputs return `0`/`1` immediately, values failing the
`parseInt` test return the previous value, and everything else runs
`numericCore` on the resolved effective constraints of the format. -/
def numericValidate (f : Formats) (p : CharacteristicProps)
    (newValue prev : JSValue) : JSValue :=
  if newValue = .bool false then .num 0
  else if newValue = .bool true then .num 1
  else if parseIntIsNaN newValue then prev
  else
    numericCore (resolvedMin f p) (resolvedMax f p) (resolvedStep f p)
      p.validValues p.validValueRanges newValue prev

/-- The string branch of `validateValue`: `newValue as string || ''`
(falsy values collapse to the empty string), `String(...)` conversion,
then truncation at `maxLen` (default 64).  The length/truncation indices
are UTF-16 units in JavaScript; they coincide with our byte positions on
the ASCII values the claims exercise. -/
def stringValidate (p : CharacteristicProps) (newValue : JSValue) : JSValue :=
  let s : List Nat :=
    match newValue with
    | .null => []
    | .bool false => []
    | .bool true => [116, 114, 117, 101]
    | .num q => if q = 0 then [] else (toString q).toUTF8.toList.map (fun b => b.toNat)
    | .str s => s
  let maxLength := p.maxLen.getD 64
  if s.length > maxLength then .str (s.take maxLength) else .str s

/-- `validateValue` (the private coercion routine, lines 659–782).
`prev` is `this.value`, the fallback for soft failures. -/
def validateValue (p : CharacteristicProps) (newValue prev : JSValue) : JSValue :=
  match p.format with
  | some .int => numericValidate .int p newValue prev
  | some .float => numericValidate .float p newValue prev
  | some .uint8 => numericValidate .uint8 p newValue prev
  | some .uint16 => numericValidate .uint16 p newValue prev
  | some .uint32 => numericValidate .uint32 p newValue prev
  | some .uint64 => numericValidate .uint64 p newValue prev
  | some .bool => .bool (jsEqTrue newValue)
  | some .string => stringValidate p newValue
  | some .data => if newValue = .null then .null else newValue
  | some .tlv8 => if newValue = .null then .null else newValue
  | some .array => if newValue = .null then .null else newValue
  | some .dict => if newValue = .null then .null else newValue
  | none => if newValue = .null then .null else newValue

/-! ## The `Characteristic` entity -/

/-- HAP status codes (`Status` from `HAPServer.ts`).

Modelled from the spec: `HAPServer.ts` is not part of the provided source;
the spec states that the last-operation status "defaults to success" and
the code tests it for truthiness, so `SUCCESS` is the (falsy) zero code
and every failure code is non-zero. -/
abbrev Status := ℤ

/-- The success status code (falsy). -/
def Status.SUCCESS : Status := 0

/-- Modelled from the spec: the fixed "write-only" rejection status used
when a read is attempted without read permission; its exact numeric value
lives in `HAPServer.ts` outside the provided source and no claim depends
on it beyond being a failure code. -/
def Status.WRITE_ONLY_CHARACTERISTIC : Status := -70405

/-- The mutable state of a `Characteristic` (identity fields plus the
fields initialised at lines 402–407). -/
structure Characteristic where
  displayName : String
  UUID : String
  props : CharacteristicProps
  iid : Option ℤ := none
  value : JSValue := .null
  status : Status := Status.SUCCESS
  eventOnlyCharacteristic : Bool := false
  subscriptions : ℤ := 0
deriving DecidableEq, Repr

/-- A `Partial<CharacteristicProps>` argument to `setProps`: `some` marks
a provided field.  (Passing an explicitly-`undefined` field is not
modelled; no claim exercises it.) -/
structure PropsUpdate where
  format : Option Formats := none
  perms : Option (List Perms) := none
  unit : Option Units := none
  description : Option String := none
  minValue : Option ℚ := none
  maxValue : Option ℚ := none
  minStep : Option ℚ := none
  maxLen : Option Nat := none
  maxDataLen : Option Nat := none
  validValues : Option (List ℚ) := none
  validValueRanges : Option (ℚ × ℚ) := none
deriving DecidableEq, Repr

/-- The copy loop of `setProps`: every provided key overwrites the
corresponding member of `this.props`. -/
def setPropsMerge (p : CharacteristicProps) (u : PropsUpdate) : CharacteristicProps :=
  { format := match u.format with | some f => some f | none => p.format
    perms := u.perms.getD p.perms
    unit := match u.unit with | some x => some x | none => p.unit
    description := match u.description with | some x => some x | none => p.description
    minValue := match u.minValue with | some x => some x | none => p.minValue
    maxValue := match u.maxValue with | some x => some x | none => p.maxValue
    minStep := match u.minStep with | some x => some x | none => p.minStep
    maxLen := match u.maxLen with | some x => some x | none => p.maxLen
    maxDataLen := match u.maxDataLen with | some x => some x | none => p.maxDataLen
    validValues := match u.validValues with | some x => some x | none => p.validValues
    validValueRanges := match u.validValueRanges with | some x => some x | none => p.validValueRanges }

/-- The error message thrown by `setProps` when `minValue > maxValue`
(single quotes of the original text elided). -/
def setPropsErrorMessage (displayName : String) : String :=
  "Error setting CharacteristicsProps for " ++ displayName ++
    ": minValue cannot be greater or equal the maxValue!"

/-- `setProps` (lines 443–459): copy the provided keys, then — when both
bounds are non-null and `minValue > maxValue` — clear both bounds and
throw.  The mutation survives the throw (the object is updated in
place), so the result pairs the updated characteristic with the optional
error message. -/
def Characteristic.setProps (c : Characteristic) (u : PropsUpdate) :
    Characteristic × Option String :=
  let p := setPropsMerge c.props u
  match p.minValue, p.maxValue with
  | some m, some M =>
    if m > M then
      ({ c with props := { p with minValue := none, maxValue := none } },
        some (setPropsErrorMessage c.displayName))
    else ({ c with props := p }, none)
  | _, _ => ({ c with props := p }, none)

/-- The events a characteristic can emit during the verified operations. -/
inductive CEvent
  | subscribe
  | unsubscribe
  | get
  | set (value : JSValue)
  | change (oldValue newValue : JSValue)
deriving DecidableEq, Repr

/-- `subscribe` (lines 464–469): emit the `subscribe` edge event when the
count is `0`, then increment. -/
def Characteristic.subscribe (c : Characteristic) : Characteristic × List CEvent :=
  ({ c with subscriptions := c.subscriptions + 1 },
    if c.subscriptions = 0 then [CEvent.subscribe] else [])

/-- `unsubscribe` (lines 474–481): remember whether the count was `1`,
decrement, clamp at `0`, and emit the `unsubscribe` edge event exactly
when the count was `1`. -/
def Characteristic.unsubscribe (c : Characteristic) : Characteristic × List CEvent :=
  let wasOne := c.subscriptions = 1
  ({ c with subscriptions := max (c.subscriptions - 1) 0 },
    if wasOne then [CEvent.unsubscribe] else [])

/-- A subscribe/unsubscribe request, for replaying call sequences. -/
inductive SubOp
  | sub
  | unsub
deriving DecidableEq, Repr

/-- Replay a sequence of subscribe/unsubscribe calls, collecting the
emitted edge events in call order. -/
def runSubOps (c : Characteristic) : List SubOp → Characteristic × List CEvent
  | [] => (c, [])
  | op :: rest =>
    let step := match op with
      | .sub => c.subscribe
      | .unsub => c.unsubscribe
    let tail := runSubOps step.1 rest
    (tail.1, step.2 ++ tail.2)

/-- Outcome of `handleGetRequest`: an immediately settled promise, or a
pending one awaiting the single-use `get` completion callback. -/
inductive GetResult
  | resolved (value : JSValue)
  | rejected (status : Status)
  | pending
deriving DecidableEq, Repr

/-- `handleGetRequest` (lines 543–581), up to the emission of the `get`
event.  `hasGetListener` is whether `this.listeners("get")` is non-empty.
The asynchronous completion path mutates no state before the callback
runs, so the immediate outcome together with the emitted events fully
describes the call. -/
def Characteristic.handleGetRequest (c : Characteristic) (hasGetListener : Bool) :
    GetResult × List CEvent :=
  if ¬ (Perms.pr ∈ c.props.perms) then
    (.rejected Status.WRITE_ONLY_CHARACTERISTIC, [])
  else if c.eventOnlyCharacteristic then
    (.resolved .null, [])
  else if ¬ hasGetListener then
    (if c.status ≠ Status.SUCCESS then .rejected c.status else .resolved c.value, [])
  else
    (.pending, [CEvent.get])

/-- Outcome of `handleSetRequest`: resolved with no payload, or pending
on the single-use `set` completion callback. -/
inductive SetResult
  | resolvedVoid
  | pending
deriving DecidableEq, Repr

/-- `handleSetRequest` (lines 594–638), up to the emission of the `set`
event.  The incoming value is coerced unconditionally; with no `set`
listener the coerced value is applied directly and a `change` event is
raised exactly when the characteristic is event-only or the coerced
value differs (strictly) from the previous cached value. -/
def Characteristic.handleSetRequest (c : Characteristic) (hasSetListener : Bool)
    (value : JSValue) : Characteristic × SetResult × List CEvent :=
  let c1 := { c with status := Status.SUCCESS }
  let v := validateValue c1.props value c1.value
  let oldValue := c1.value
  if ¬ hasSetListener then
    let c2 := { c1 with value := v }
    if c2.eventOnlyCharacteristic = true ∨ oldValue ≠ v then
      (c2, .resolvedVoid, [CEvent.change oldValue v])
    else
      (c2, .resolvedVoid, [])
  else
    (c1, .pending, [CEvent.set v])

/-! ## WHATWG UTF-8 decoding with replacement

`buf.toString("utf8", 0, 256)` in `toHAP` decodes the first 256 bytes
back into a JavaScript string.  Node follows the WHATWG UTF-8 decoder:
well-formed sequences pass through, and every maximal subpart of an
ill-formed subsequence (in particular a multi-byte character split by
the 256-byte cut) becomes one U+FFFD.  Since strings are modelled by
their UTF-8 bytes, the decode-then-reencode composite is a byte-list
transform, `utf8Repair`. -/

/-- The UTF-8 encoding of U+FFFD (the replacement character). -/
def fffd : List Nat := [239, 191, 189]

/-- A UTF-8 continuation byte (`0x80`–`0xBF`). -/
def isCont (c : Nat) : Bool := 128 ≤ c && c ≤ 191

/-- Admissible first continuation for a three-byte lead (WHATWG ranges:
`E0` needs `A0`–`BF`, `ED` needs `80`–`9F`, the rest `80`–`BF`). -/
def cont1ok3 (b c1 : Nat) : Bool :=
  if b = 224 then 160 ≤ c1 && c1 ≤ 191
  else if b = 237 then 128 ≤ c1 && c1 ≤ 159
  else isCont c1

/-- Admissible first continuation for a four-byte lead (WHATWG ranges:
`F0` needs `90`–`BF`, `F4` needs `80`–`8F`, the rest `80`–`BF`). -/
def cont1ok4 (b c1 : Nat) : Bool :=
  if b = 240 then 144 ≤ c1 && c1 ≤ 191
  else if b = 244 then 128 ≤ c1 && c1 ≤ 143
  else isCont c1

/-- Byte count of the complete well-formed UTF-8 sequence heading the
list, `none` when the head is not one (invalid lead, bad continuation,
or truncated sequence). -/
def readCharLen : List Nat → Option Nat
  | [] => none
  | b :: rest =>
    if b < 128 then some 1
    else if 194 ≤ b && b ≤ 223 then
      match rest with
      | c1 :: _ => if isCont c1 then some 2 else none
      | [] => none
    else if 224 ≤ b && b ≤ 239 then
      match rest with
      | c1 :: c2 :: _ => if cont1ok3 b c1 && isCont c2 then some 3 else none
      | _ => none
    else if 240 ≤ b && b ≤ 244 then
      match rest with
      | c1 :: c2 :: c3 :: _ =>
        if cont1ok4 b c1 && isCont c2 && isCont c3 then some 4 else none
      | _ => none
    else none

/-- Length of the maximal subpart of the ill-formed subsequence at the
head of the list: the bytes a WHATWG decoder consumes before emitting a
single U+FFFD (a lead plus its valid continuation prefix; one byte for
an invalid lead or stray continuation). -/
def badSpan : List Nat → Nat
  | [] => 1
  | b :: rest =>
    if 224 ≤ b && b ≤ 239 then
      match rest with
      | c1 :: _ => if cont1ok3 b c1 then 2 else 1
      | [] => 1
    else if 240 ≤ b && b ≤ 244 then
      match rest with
      | c1 :: c2 :: _ => if cont1ok4 b c1 then (if isCont c2 then 3 else 2) else 1
      | c1 :: [] => if cont1ok4 b c1 then 2 else 1
      | [] => 1
    else 1

/-- Fuel-indexed WHATWG decode-with-replacement, re-encoded: well-formed
sequences pass through unchanged, each maximal ill-formed subpart
becomes `fffd`.  The fuel is an upper bound on the byte count (each
step consumes at least one byte), so the `0`-fuel fallback is
unreachable from `utf8Repair`. -/
def utf8RepairAux : Nat → List Nat → List Nat
  | _, [] => []
  | 0, _ :: _ => []
  | fuel + 1, b :: rest =>
    match readCharLen (b :: rest) with
    | some k => (b :: rest).take k ++ utf8RepairAux fuel ((b :: rest).drop k)
    | none => fffd ++ utf8RepairAux fuel ((b :: rest).drop (badSpan (b :: rest)))

/-- `bytes → Node string → bytes`: the UTF-8 bytes of
`Buffer.from(bytes).toString("utf8")`. -/
def utf8Repair (bs : List Nat) : List Nat := utf8RepairAux bs.length bs

/-- Fuel-indexed test that a byte list is a concatenation of complete
well-formed UTF-8 sequences (so that decoding is lossless). -/
def utf8CompleteAux : Nat → List Nat → Bool
  | _, [] => true
  | 0, _ :: _ => false
  | fuel + 1, b :: rest =>
    match readCharLen (b :: rest) with
    | some k => utf8CompleteAux fuel ((b :: rest).drop k)
    | none => false

/-- A byte list that decodes without any replacement: a concatenation of
complete well-formed UTF-8 sequences. -/
def utf8Complete (bs : List Nat) : Bool := utf8CompleteAux bs.length bs

/-! ## Wire projection (`toHAP`) -/

/-- A value slot of the wire record.  `nan` records the transient `NaN`
that `parseInt`/`parseFloat` can produce inside `toHAP` for non-numeric
cached values. -/
inductive WireValue
  | js (v : JSValue)
  | nan
deriving DecidableEq, Repr

/-- `ToHAPOptions`. -/
structure ToHAPOptions where
  omitValues : Bool
deriving DecidableEq, Repr

/-- `opt && opt.omitValues`: the omit-values request of an optional
options argument. -/
def optOmitValues : Option ToHAPOptions → Bool
  | some o => o.omitValues
  | none => false

/-- The wire record (`HapCharacteristic`).  Optional keys model JSON
field presence: `none` means the key is absent from the record. -/
structure HapCharacteristic where
  iid : Option ℤ
  type : String
  perms : List Perms
  format : Option Formats
  value : Option WireValue
  description : String
  validValues : Option (List ℚ) := none
  validValueRanges : Option (ℚ × ℚ) := none
  unit : Option Units := none
  maxValue : Option ℚ := none
  minValue : Option ℚ := none
  minStep : Option ℚ := none
  maxLen : Option Nat := none
deriving DecidableEq, Repr

/-- `decimalPlaces` (lines 904–913): the number of digits right of the
decimal point in the printed number.  For a decimal rational this is the
least `d` with `num * 10^d` integral (the source counts printed digits
and corrects for an exponent; `0` for non-decimal rationals, which an
IEEE double never is). -/
def decimalPlaces (q : ℚ) : ℕ :=
  ((List.range 21).find? (fun d => (q * 10 ^ d).den = 1)).getD 0

/-- `Math.round`: round half toward positive infinity. -/
def roundHalfUp (q : ℚ) : ℤ := ⌊q + 1 / 2⌋

/-- `parseInt(value)` inside `toHAP`: numbers truncate toward zero
(through their printed form), strings parse their leading integer, and
everything else is `NaN`. -/
def wParseInt : JSValue → WireValue
  | .num q => .js (.num (jsTrunc q))
  | .str s =>
    match parseIntStr s with
    | some n => .js (.num (n : ℚ))
    | none => .nan
  | _ => .nan

/-- `parseFloat(value)` inside `toHAP`. -/
def wParseFloat : JSValue → WireValue
  | .num q => .js (.num q)
  | .str s =>
    match parseFloatStr s with
    | some q => .js (.num q)
    | none => .nan
  | _ => .nan

/-- `toHAP` (lines 793–869): clamp the cached value to declared bounds
(presence-checked with `!= null`, unlike the truthiness test of
`validateValue`), apply the per-format numeric normalization, null the
value for event-only characteristics, build the record, attach the
conditional constraint fields, apply the string byte-length rule, and
finally delete the `value` key when read permission is absent or the
omit-values option is set.

In the over-256-bytes branch the source assigns
`str.toString("utf8", 0, 256)` — the first 256 bytes decoded back into
a string with U+FFFD replacement — modelled as
`utf8Repair (bytes.take 256)`.

The `type` field is the short form of the UUID computed by the external
`toShortForm` util (outside the provided source); it is modelled as the
identity.  `Buffer.from(value)` throws for a non-string value under the
string format in the source; that unreachable-in-verified-paths case is
modelled as an empty byte sequence. -/
def Characteristic.toHAP (c : Characteristic) (opt : Option ToHAPOptions) :
    HapCharacteristic :=
  let v0 := c.value
  let v1 := match c.props.minValue with
    | some m => if jsLtNum v0 m then JSValue.num m else v0
    | none => v0
  let v2 := match c.props.maxValue with
    | some M => if jsGtNum v1 M then JSValue.num M else v1
    | none => v1
  let w : WireValue := match c.props.format with
    | some .int => wParseInt v2
    | some .uint8 => wParseInt v2
    | some .uint16 => wParseInt v2
    | some .uint32 => wParseInt v2
    | some .uint64 => wParseInt v2
    | some .float =>
      match wParseFloat v2 with
      | .js (.num q) =>
        match c.props.minStep with
        | some s =>
          let pow : ℚ := 10 ^ decimalPlaces s
          .js (.num ((roundHalfUp (q * pow) : ℚ) / pow))
        | none => .js (.num q)
      | w' => w'
    | _ => .js v2
  let w := if c.eventOnlyCharacteristic then WireValue.js .null else w
  let stringAdjusted : WireValue × Option Nat :=
    if c.props.format = some .string then
      let bytes := match w with
        | .js (.str s) => s
        | _ => []
      let len := bytes.length
      if len > 256 then (.js (.str (utf8Repair (bytes.take 256))), some 256)
      else if len > 64 then (w, some len)
      else (w, none)
    else (w, none)
  let omitted := optOmitValues opt
  { iid := c.iid
    type := c.UUID
    perms := c.props.perms
    format := c.props.format
    value := if Perms.pr ∈ c.props.perms then (if omitted then none else some stringAdjusted.1) else none
    description := c.displayName
    validValues := match c.props.validValues with
      | some l => if l.isEmpty then none else some l
      | none => none
    validValueRanges := c.props.validValueRanges
    unit := c.props.unit
    maxValue := c.props.maxValue
    minValue := c.props.minValue
    minStep := c.props.minStep
    maxLen := stringAdjusted.2 }

/-! ## Construction and serialization -/

/-- The props shape installed by the constructor when none is given
(lines 412–419): `format`/`unit`/bounds/step are `null`, `perms` is
empty. -/
def ctorDefaultProps : CharacteristicProps :=
  { format := none, perms := [] }

/-- The constructor (lines 409–422): install the given (or default)
props, then run `setProps({})` so the min/max sanity check fires; a
violating configuration throws out of construction. -/
def mkCharacteristic (displayName UUID : String)
    (props : Option CharacteristicProps) : Except String Characteristic :=
  let c0 : Characteristic :=
    { displayName := displayName, UUID := UUID, props := props.getD ctorDefaultProps }
  match c0.setProps {} with
  | (c1, none) => .ok c1
  | (_, some e) => .error e

/-- `SerializedCharacteristic`. -/
structure SerializedCharacteristic where
  displayName : String
  UUID : String
  props : CharacteristicProps
  value : JSValue
  eventOnlyCharacteristic : Bool
deriving DecidableEq, Repr

/-- `serialize` (lines 876–884); `clone` of the props is the identity on
pure values. -/
def Characteristic.serialize (c : Characteristic) : SerializedCharacteristic :=
  { displayName := c.displayName
    UUID := c.UUID
    props := c.props
    value := c.value
    eventOnlyCharacteristic := c.eventOnlyCharacteristic }

/-- `deserialize` (lines 891–898): rebuild through the ordinary
constructor (re-running its constraint validation), then restore the
cached value and the event-only flag. -/
def Characteristic.deserialize (json : SerializedCharacteristic) :
    Except String Characteristic :=
  (mkCharacteristic json.displayName json.UUID (some json.props)).map
    (fun c => { c with
      value := json.value
      eventOnlyCharacteristic := json.eventOnlyCharacteristic })


/-! ## Auxiliary predicates used in claim statements -/

/-- An optional bound is integral: absent, or a rational with
denominator `1`. -/
def optIntegral : Option ℚ → Bool
  | some q => q.den == 1
  | none => true

/-- Bound consistency: whenever both bounds are present, `min ≤ max`. -/
def boundsConsistent : Option ℚ → Option ℚ → Bool
  | some m, some M => m ≤ M
  | _, _ => true

/-- Rational-level form of `clampMinJS` on a number input. -/
def clampMinQ (lo : Option ℚ) (q : ℚ) : ℚ :=
  match lo with
  | some m => if q < m then m else q
  | none => q

/-- Rational-level form of `clampMaxJS` on a number input. -/
def clampMaxQ (hi : Option ℚ) (q : ℚ) : ℚ :=
  match hi with
  | some M => if M < q then M else q
  | none => q

/-! ## Concrete fixtures used by the claim witnesses -/

/-- An int characteristic with declared bounds `[5, 10]`. -/
def intBounded : Characteristic :=
  { displayName := "Brightness", UUID := "u1",
    props := { format := some Formats.int, perms := [Perms.pr],
               minValue := some 5, maxValue := some 10 } }

/-- A plain characteristic with subscriber count `5`. -/
def subAtFive : Characteristic :=
  { displayName := "d", UUID := "u2",
    props := { format := some Formats.bool, perms := [] },
    subscriptions := 5 }

/-- A plain characteristic with subscriber count `0`. -/
def subAtZero : Characteristic :=
  { displayName := "d", UUID := "u2",
    props := { format := some Formats.bool, perms := [] } }

/-- A readable uint8 characteristic with cached value `42` and success
status. -/
def readableOk : Characteristic :=
  { displayName := "d", UUID := "u3",
    props := { format := some Formats.uint8, perms := [Perms.pr] },
    value := .num 42 }

/-- The same characteristic with a stuck non-success status. -/
def readableStuck : Characteristic :=
  { readableOk with status := -70402 }

/-- A non-event-only boolean characteristic caching `false`. -/
def boolCached : Characteristic :=
  { displayName := "d", UUID := "u4",
    props := { format := some Formats.bool, perms := [Perms.pr, Perms.pw] },
    value := .bool false }

/-- The event-only variant of `boolCached`. -/
def boolCachedEventOnly : Characteristic :=
  { boolCached with eventOnlyCharacteristic := true }

/-- A write-only characteristic holding a non-null cached value. -/
def unreadableNonNull : Characteristic :=
  { displayName := "d", UUID := "u5",
    props := { format := some Formats.uint8, perms := [Perms.pw] },
    value := .num 3 }

/-- A readable string characteristic whose cached value has UTF-8 byte
length 300. -/
def str300 : Characteristic :=
  { displayName := "d", UUID := "u6",
    props := { format := some Formats.string, perms := [Perms.pr] },
    value := .str (List.replicate 300 97) }

/-- As `str300` with byte length 100. -/
def str100 : Characteristic :=
  { str300 with value := .str (List.replicate 100 97) }

/-- As `str300` with byte length 40. -/
def str40 : Characteristic :=
  { str300 with value := .str (List.replicate 40 97) }

/-- The UTF-8 bytes of 100 euro signs (U+20AC, three bytes each): a
300-byte string whose 256-byte cut falls inside a character. -/
def euroBytes : List Nat := (List.replicate 100 [226, 130, 172]).flatten

/-- A readable string characteristic caching the 100-euro-sign value. -/
def euroStr : Characteristic :=
  { displayName := "d", UUID := "u9",
    props := { format := some Formats.string, perms := [Perms.pr] },
    value := .str euroBytes }

/-- `intBounded` with a set cached value, for the round-trip witness. -/
def intBoundedValued : Characteristic :=
  { intBounded with value := .num 7 }

/-- A characteristic whose props carry inconsistent bounds (as a
tampered serialized form would). -/
def badBounds : Characteristic :=
  { displayName := "Bad", UUID := "u7",
    props := { format := some Formats.int, perms := [Perms.pr],
               minValue := some 10, maxValue := some 5 },
    value := .num 7 }

/-- A uint8 characteristic with declared bounds `[5, 10]`, for the
numeric range witness. -/
def uint8Bounded : Characteristic :=
  { displayName := "d", UUID := "u8",
    props := { format := some Formats.uint8, perms := [Perms.pr],
               minValue := some 5, maxValue := some 10 } }

/-! ## Claims about configuration and subscription -/

/-- **C2.** Calling `setProps` with both `minValue` and `maxValue`
provided and `minValue > maxValue` returns the descriptive configuration
error synchronously, and the resulting props have both bounds cleared
(never partially applied). -/
theorem setProps_min_gt_max_fails_and_clears
    (c : Characteristic) (u : PropsUpdate) (m M : ℚ)
    (hm : u.minValue = some m) (hM : u.maxValue = some M) (hgt : M < m) :
    (c.setProps u).2 = some (setPropsErrorMessage c.displayName) ∧
    (c.setProps u).1.props.minValue = none ∧
    (c.setProps u).1.props.maxValue = none := by
  have hmerge_min : (setPropsMerge c.props u).minValue = some m := by
    simp [setPropsMerge, hm]
  have hmerge_max : (setPropsMerge c.props u).maxValue = some M := by
    simp [setPropsMerge, hM]
  simp [Characteristic.setProps, hmerge_min, hmerge_max, hgt]

/-- Witness for C2 at the spec's example `minValue = 10, maxValue = 5`. -/
theorem setProps_min_gt_max_fails_and_clears_witness :
    (intBounded.setProps { minValue := some 10, maxValue := some 5 }).2 =
      some (setPropsErrorMessage "Brightness") ∧
    (intBounded.setProps { minValue := some 10, maxValue := some 5 }).1.props.minValue = none ∧
    (intBounded.setProps { minValue := some 10, maxValue := some 5 }).1.props.maxValue = none :=
  setProps_min_gt_max_fails_and_clears _ _ 10 5 rfl rfl (by norm_num)

/-- **C4.** Subscription edges: `subscribe` raises the `subscribe` event
exactly on the 0→1 transition, `unsubscribe` raises the `unsubscribe`
event exactly on the 1→0 transition, the count is floored at `0` (an
unsubscribe at count `0` fires nothing), and the two spec sequences
starting from count `0` fire edges in the stated order. -/
theorem subscription_edge_events
    (c c0 : Characteristic) (_hge : 0 ≤ c.subscriptions)
    (h0 : c0.subscriptions = 0) :
    (c.subscribe.2 = if c.subscriptions = 0 then [CEvent.subscribe] else []) ∧
    (c.subscribe.1.subscriptions = c.subscriptions + 1) ∧
    (c.unsubscribe.2 = if c.subscriptions = 1 then [CEvent.unsubscribe] else []) ∧
    (0 ≤ c.unsubscribe.1.subscriptions) ∧
    (c0.unsubscribe.2 = []) ∧
    ((runSubOps c0 [.sub, .sub, .unsub, .unsub]).2 =
      [CEvent.subscribe, CEvent.unsubscribe]) ∧
    ((runSubOps c0 [.sub, .unsub, .sub]).2 =
      [CEvent.subscribe, CEvent.unsubscribe, CEvent.subscribe]) := by
  refine ⟨rfl, rfl, rfl, ?_, ?_, ?_, ?_⟩
  · exact le_max_right _ _
  · simp [Characteristic.unsubscribe, h0]
  · simp [runSubOps, Characteristic.subscribe, Characteristic.unsubscribe, h0]
  · simp [runSubOps, Characteristic.subscribe, Characteristic.unsubscribe, h0]

/-- Witness for C4 at counts `5` (plain transitions) and `0` (the spec's
two sequences). -/
theorem subscription_edge_events_witness :
    (subAtFive.subscribe.2 =
      if subAtFive.subscriptions = 0 then [CEvent.subscribe] else []) ∧
    (subAtFive.subscribe.1.subscriptions = subAtFive.subscriptions + 1) ∧
    (subAtFive.unsubscribe.2 =
      if subAtFive.subscriptions = 1 then [CEvent.unsubscribe] else []) ∧
    (0 ≤ subAtFive.unsubscribe.1.subscriptions) ∧
    (subAtZero.unsubscribe.2 = []) ∧
    ((runSubOps subAtZero [.sub, .sub, .unsub, .unsub]).2 =
      [CEvent.subscribe, CEvent.unsubscribe]) ∧
    ((runSubOps subAtZero [.sub, .unsub, .sub]).2 =
      [CEvent.subscribe, CEvent.unsubscribe, CEvent.subscribe]) :=
  subscription_edge_events subAtFive subAtZero (by norm_num [subAtFive]) rfl

/-! ## Claims about the get/set negotiation -/

/-- **C5.** With paired-read permission, not event-only, and no `get`
listener: `handleGetRequest` resolves with the cached value when the
recorded status is success and rejects with the recorded status when it
is non-success, emitting no event either way. -/
theorem handleGetRequest_no_listener_cached
    (c : Characteristic) (hp : Perms.pr ∈ c.props.perms)
    (hev : c.eventOnlyCharacteristic = false) :
    (c.status = Status.SUCCESS →
      c.handleGetRequest false = (.resolved c.value, [])) ∧
    (c.status ≠ Status.SUCCESS →
      c.handleGetRequest false = (.rejected c.status, [])) := by
  constructor <;> intro hs <;>
    simp [Characteristic.handleGetRequest, hp, hev, hs]

/-- Witness for C5, at a success-status and a stuck-failure-status
characteristic. -/
theorem handleGetRequest_no_listener_cached_witness :
    (readableOk.handleGetRequest false = (.resolved (.num 42), [])) ∧
    (readableStuck.handleGetRequest false = (.rejected (-70402), [])) :=
  ⟨(handleGetRequest_no_listener_cached readableOk (by decide) rfl).1 rfl,
   (handleGetRequest_no_listener_cached readableStuck (by decide) rfl).2 (by decide)⟩

/-- **C6.** With no `set` listener, `handleSetRequest` raises a `change`
event exactly when the characteristic is event-only or the coerced value
differs from the previous cached value; in particular a set whose
coerced value equals the cached value raises nothing on a non-event-only
characteristic and exactly one `change` event on an event-only one. -/
theorem handleSetRequest_change_condition
    (c : Characteristic) (raw : JSValue)
    (hv : validateValue c.props raw c.value = c.value) :
    ((c.eventOnlyCharacteristic = false →
        (c.handleSetRequest false raw).2.2 = []) ∧
     (c.eventOnlyCharacteristic = true →
        (c.handleSetRequest false raw).2.2 = [CEvent.change c.value c.value]) ∧
     (∀ raw' : JSValue,
        (c.handleSetRequest false raw').2.2 =
          if c.eventOnlyCharacteristic = true ∨ c.value ≠ validateValue c.props raw' c.value
          then [CEvent.change c.value (validateValue c.props raw' c.value)]
          else [])) := by
  refine ⟨?_, ?_, ?_⟩
  · intro hev
    simp [Characteristic.handleSetRequest, hv, hev]
  · intro hev
    simp [Characteristic.handleSetRequest, hv, hev]
  · intro raw'
    by_cases hcond : c.eventOnlyCharacteristic = true ∨
        c.value ≠ validateValue c.props raw' c.value
    · simp [Characteristic.handleSetRequest, hcond]
    · simp only [Characteristic.handleSetRequest]
      simp [hcond]

/-- Witness for C6: a same-value set on a non-event-only characteristic
(no `change`) and on an event-only one (exactly one `change`). -/
theorem handleSetRequest_change_condition_witness :
    ((boolCached.handleSetRequest false (.bool false)).2.2 = []) ∧
    ((boolCachedEventOnly.handleSetRequest false (.bool false)).2.2 =
      [CEvent.change (.bool false) (.bool false)]) :=
  ⟨(handleSetRequest_change_condition boolCached (.bool false) (by decide)).1 rfl,
   (handleSetRequest_change_condition boolCachedEventOnly (.bool false) (by decide)).2.1 rfl⟩

/-! ## Claims about the wire projection -/

/-- **C8.** The wire record omits the `value` key entirely whenever
paired-read permission is absent (even for a non-null cached value), and
whenever the omit-values option is passed, regardless of permissions. -/
theorem toHAP_value_elision (c : Characteristic) (opt : Option ToHAPOptions) :
    (Perms.pr ∉ c.props.perms → (c.toHAP opt).value = none) ∧
    (∀ o : ToHAPOptions, opt = some o → o.omitValues = true →
      (c.toHAP opt).value = none) := by
  constructor
  · intro h
    simp [Characteristic.toHAP, h]
  · intro o ho homit
    subst ho
    by_cases hp : Perms.pr ∈ c.props.perms <;>
      simp [Characteristic.toHAP, optOmitValues, hp, homit]

/-- Witness for C8: a write-only characteristic with a non-null cached
value, and a readable one projected with `omitValues`. -/
theorem toHAP_value_elision_witness :
    ((unreadableNonNull.toHAP none).value = none) ∧
    ((readableOk.toHAP (some { omitValues := true })).value = none) :=
  ⟨(toHAP_value_elision unreadableNonNull none).1 (by decide),
   (toHAP_value_elision readableOk (some { omitValues := true })).2
     { omitValues := true } rfl rfl⟩

/-! ## Claims about boolean coercion -/

/-- **C3 counterexample.** The input `2` is truthy, yet the boolean
coercion maps it to `false`: the source tests `newValue == true` (loose
equality, which compares against the number `1`), not truthiness, so the
claim that every truthy-equivalent input maps to `true` fails at `2`. -/
theorem boolFormat_truthy_two_coerces_false :
    jsTruthy (.num 2) = true ∧
    validateValue { format := some Formats.bool, perms := [] } (.num 2) .null =
      .bool false := by
  constructor <;> decide

/-- **C3 (amended).** For the boolean format, coercion returns exactly
the JavaScript loose-equality comparison of the input with `true`
(`true`, `1`, and strings converting to `1` map to `true`; every other
input — including other truthy values — maps to `false`).  The result is
always a boolean, independent of the previous value: there is no
rejection path and no fallback. -/
theorem validateValue_bool_loose_equality
    (p : CharacteristicProps) (v prev : JSValue)
    (hf : p.format = some Formats.bool) :
    validateValue p v prev = .bool (jsEqTrue v) := by
  simp [validateValue, hf]

/-- Witness for C3 (amended) at the boolean fixture and input `1`. -/
theorem validateValue_bool_loose_equality_witness :
    validateValue boolCached.props (.num 1) .null = .bool (jsEqTrue (.num 1)) :=
  validateValue_bool_loose_equality boolCached.props (.num 1) .null rfl

/-! ## Claim about zero-valued declared constraints -/

/-- **C10.** In the numeric coercion path a declared `minValue`,
`maxValue` or `minStep` equal to `0` behaves exactly as if it were
undeclared (the override guard tests the declared number for
truthiness); in particular a float characteristic with declared
`maxValue = 0` returns an input of `5` unclamped. -/
theorem validateValue_zero_constraint_ignored :
    (∀ (p : CharacteristicProps) (v prev : JSValue),
      validateValue { p with maxValue := some 0 } v prev =
        validateValue { p with maxValue := none } v prev) ∧
    (∀ (p : CharacteristicProps) (v prev : JSValue),
      validateValue { p with minValue := some 0 } v prev =
        validateValue { p with minValue := none } v prev) ∧
    (∀ (p : CharacteristicProps) (v prev : JSValue),
      validateValue { p with minStep := some 0 } v prev =
        validateValue { p with minStep := none } v prev) ∧
    validateValue { format := some Formats.float, perms := [], maxValue := some 0 }
      (.num 5) .null = .num 5 := by
  refine ⟨?_, ?_, ?_, by decide⟩ <;>
    (intro p v prev
     cases hf : p.format with
     | none => simp [validateValue, hf]
     | some f =>
       cases f <;>
         simp [validateValue, hf, numericValidate, stringValidate,
           resolvedMin, resolvedMax, resolvedStep, optTruthy])


/-- `readCharLen` never returns a zero length: a recognised sequence is
one to four bytes long. -/
theorem readCharLen_pos {bs : List Nat} {k : Nat}
    (h : readCharLen bs = some k) : 1 ≤ k := by
  cases bs with
  | nil => simp [readCharLen] at h
  | cons b rest =>
    simp only [readCharLen] at h
    split_ifs at h <;>
      repeat'
        first
        | omega
        | (injection h with h)
        | exact Option.noConfusion h
        | split at h

/-- With enough fuel, repairing a concatenation of complete well-formed
sequences is the identity. -/
theorem utf8RepairAux_of_complete :
    ∀ (fuel : Nat) (bs : List Nat), bs.length ≤ fuel →
      utf8CompleteAux fuel bs = true → utf8RepairAux fuel bs = bs := by
  intro fuel
  induction fuel with
  | zero =>
    intro bs hf _
    have hnil : bs = [] := List.eq_nil_of_length_eq_zero (Nat.le_zero.mp hf)
    subst hnil
    rfl
  | succ n ih =>
    intro bs hf hc
    cases bs with
    | nil => rfl
    | cons b rest =>
      cases hk : readCharLen (b :: rest) with
      | none => simp [utf8CompleteAux, hk] at hc
      | some k =>
        have hpos : 1 ≤ k := readCharLen_pos hk
        have hlen : ((b :: rest).drop k).length ≤ n := by
          simp only [List.length_drop, List.length_cons]
          simp only [List.length_cons] at hf
          omega
        simp only [utf8RepairAux, utf8CompleteAux, hk] at hc ⊢
        rw [ih _ hlen hc]
        exact List.take_append_drop k (b :: rest)

/-- Decoding is lossless on complete well-formed UTF-8: `utf8Repair` is
the identity there (in particular, a 256-byte cut on a character
boundary transmits exactly those 256 bytes). -/
theorem utf8Repair_of_complete {bs : List Nat} (h : utf8Complete bs = true) :
    utf8Repair bs = bs :=
  utf8RepairAux_of_complete bs.length bs le_rfl h

/-- ASCII byte lists are complete well-formed UTF-8. -/
theorem utf8CompleteAux_ascii :
    ∀ (fuel : Nat) (bs : List Nat), bs.length ≤ fuel →
      (∀ b ∈ bs, b < 128) → utf8CompleteAux fuel bs = true := by
  intro fuel
  induction fuel with
  | zero =>
    intro bs hf _
    have hnil : bs = [] := List.eq_nil_of_length_eq_zero (Nat.le_zero.mp hf)
    subst hnil
    rfl
  | succ n ih =>
    intro bs hf hascii
    cases bs with
    | nil => rfl
    | cons b rest =>
      have hb : b < 128 := hascii b (by simp)
      have hk : readCharLen (b :: rest) = some 1 := by simp [readCharLen, hb]
      simp only [utf8CompleteAux, hk, List.drop_succ_cons, List.drop_zero]
      apply ih
      · simp only [List.length_cons] at hf
        omega
      · intro x hx
        exact hascii x (by simp [hx])

/-- ASCII byte lists decode to themselves. -/
theorem utf8Complete_ascii {bs : List Nat} (h : ∀ b ∈ bs, b < 128) :
    utf8Complete bs = true :=
  utf8CompleteAux_ascii bs.length bs le_rfl h

set_option maxRecDepth 8000 in
/-- **C7 counterexample.** The 300-byte value of 100 three-byte euro
signs: the 256-byte cut splits the 86th character, so the source
(`str.toString("utf8", 0, 256)`) transmits 85 euro signs plus one
U+FFFD — 258 bytes, not 256 — while still declaring `maxLen = 256`.
The claim that the transmitted value is "exactly 256 bytes" is false at
this input. -/
theorem toHAP_string_split_char_not_256 :
    256 < euroBytes.length ∧
    (euroStr.toHAP none).maxLen = some 256 ∧
    (euroStr.toHAP none).value =
      some (.js (.str ((List.replicate 85 [226, 130, 172]).flatten ++ fffd))) ∧
    ((List.replicate 85 [226, 130, 172]).flatten ++ fffd).length = 258 ∧
    ¬ ((List.replicate 85 [226, 130, 172]).flatten ++ fffd).length = 256 := by
  refine ⟨by decide, by decide, by decide, by decide, by decide⟩

/-- **C7 (amended).** String wire projection: a cached string value
whose UTF-8 byte length exceeds 256 is transmitted as the
replacement-repaired decode of its first 256 bytes with `maxLen = 256`
declared; when those 256 bytes are complete well-formed UTF-8 (the cut
does not split a multi-byte character — always the case for ASCII) the
transmitted value is exactly those 256 bytes, while a split character
becomes U+FFFD and can change the transmitted byte length (see the
counterexample).  A byte length in `(64, 256]` is transmitted
untruncated with `maxLen` equal to the exact byte length; a byte length
of at most 64 is transmitted with no `maxLen` key at all. -/
theorem toHAP_string_byte_rule
    (c : Characteristic) (opt : Option ToHAPOptions) (l : List Nat)
    (hfmt : c.props.format = some Formats.string)
    (hval : c.value = .str l)
    (hev : c.eventOnlyCharacteristic = false)
    (hmin : c.props.minValue = none) (hmax : c.props.maxValue = none)
    (hperm : Perms.pr ∈ c.props.perms)
    (homit : optOmitValues opt = false) :
    (256 < l.length →
      (c.toHAP opt).value = some (.js (.str (utf8Repair (l.take 256)))) ∧
      (c.toHAP opt).maxLen = some 256 ∧
      (utf8Complete (l.take 256) = true →
        utf8Repair (l.take 256) = l.take 256 ∧ (l.take 256).length = 256)) ∧
    (64 < l.length → l.length ≤ 256 →
      (c.toHAP opt).value = some (.js (.str l)) ∧
      (c.toHAP opt).maxLen = some l.length) ∧
    (l.length ≤ 64 →
      (c.toHAP opt).value = some (.js (.str l)) ∧
      (c.toHAP opt).maxLen = none) := by
  refine ⟨?_, ?_, ?_⟩
  · intro h256
    have h256' : l.length > 256 := h256
    refine ⟨?_, ?_, ?_⟩
    · simp [Characteristic.toHAP, hfmt, hval, hev, hmin, hmax, hperm, homit, h256']
    · simp [Characteristic.toHAP, hfmt, hval, hev, hmin, hmax, homit, h256']
    · intro hcomp
      refine ⟨utf8Repair_of_complete hcomp, ?_⟩
      rw [List.length_take]
      omega
  · intro h64 h256
    have hn256 : ¬ l.length > 256 := by omega
    have h64' : l.length > 64 := h64
    constructor
    · simp [Characteristic.toHAP, hfmt, hval, hev, hmin, hmax, hperm, homit,
        hn256, h64']
    · simp [Characteristic.toHAP, hfmt, hval, hev, hmin, hmax, homit, hn256, h64']
  · intro h64
    have hn256 : ¬ l.length > 256 := by omega
    have hn64 : ¬ l.length > 64 := by omega
    constructor
    · simp [Characteristic.toHAP, hfmt, hval, hev, hmin, hmax, hperm, homit,
        hn256, hn64]
    · simp [Characteristic.toHAP, hfmt, hval, hev, hmin, hmax, homit, hn256, hn64]

set_option maxRecDepth 8000 in
/-- Witness for C7 (amended) at byte lengths 300 (ASCII, clean cut:
exactly 256 bytes transmitted), 100 and 40. -/
theorem toHAP_string_byte_rule_witness :
    ((str300.toHAP none).value =
        some (.js (.str (utf8Repair ((List.replicate 300 97).take 256)))) ∧
      (str300.toHAP none).maxLen = some 256 ∧
      (utf8Complete ((List.replicate 300 97).take 256) = true →
        utf8Repair ((List.replicate 300 97).take 256) =
          (List.replicate 300 97).take 256 ∧
        ((List.replicate 300 97).take 256).length = 256)) ∧
    ((str100.toHAP none).value = some (.js (.str (List.replicate 100 97))) ∧
      (str100.toHAP none).maxLen = some (List.replicate 100 97).length) ∧
    ((str40.toHAP none).value = some (.js (.str (List.replicate 40 97))) ∧
      (str40.toHAP none).maxLen = none) :=
  ⟨(toHAP_string_byte_rule str300 none (List.replicate 300 97) rfl rfl rfl rfl rfl
      (by decide) rfl).1 (by rw [List.length_replicate]; norm_num),
   (toHAP_string_byte_rule str100 none (List.replicate 100 97) rfl rfl rfl rfl rfl
      (by decide) rfl).2.1 (by rw [List.length_replicate]; norm_num)
      (by rw [List.length_replicate]; norm_num),
   ((toHAP_string_byte_rule str40 none (List.replicate 40 97) rfl rfl rfl rfl rfl
      (by decide) rfl).2.2 (by rw [List.length_replicate]; norm_num))⟩

/-! ## Claim about serialization -/

/-- **C9.** `deserialize(serialize(c))` reproduces the display name,
type UUID, constraint props, cached value and event-only flag exactly
when the props are valid; and when the serialized props carry
inconsistent bounds, deserialization fails with exactly the error a
fresh construction from the same props produces (it re-validates through
the same construction path). -/
theorem serialize_deserialize_roundtrip (c : Characteristic) :
    (boundsConsistent c.props.minValue c.props.maxValue = true →
      ∃ c', Characteristic.deserialize c.serialize = .ok c' ∧
        c'.displayName = c.displayName ∧ c'.UUID = c.UUID ∧
        c'.props = c.props ∧ c'.value = c.value ∧
        c'.eventOnlyCharacteristic = c.eventOnlyCharacteristic) ∧
    (∀ m M : ℚ, c.props.minValue = some m → c.props.maxValue = some M → M < m →
      Characteristic.deserialize c.serialize =
        .error (setPropsErrorMessage c.displayName) ∧
      mkCharacteristic c.displayName c.UUID (some c.props) =
        .error (setPropsErrorMessage c.displayName)) := by
  have hmerge : setPropsMerge c.props {} = c.props := rfl
  constructor
  · intro hvalid
    refine ⟨{ displayName := c.displayName, UUID := c.UUID, props := c.props,
              value := c.value,
              eventOnlyCharacteristic := c.eventOnlyCharacteristic },
            ?_, rfl, rfl, rfl, rfl, rfl⟩
    cases hmin : c.props.minValue with
    | none =>
      simp [Characteristic.deserialize, Characteristic.serialize,
        mkCharacteristic, Characteristic.setProps, hmerge, hmin, Except.map]
    | some m =>
      cases hmax : c.props.maxValue with
      | none =>
        simp [Characteristic.deserialize, Characteristic.serialize,
          mkCharacteristic, Characteristic.setProps, hmerge, hmin, hmax,
          Except.map]
      | some M =>
        have hle : m ≤ M := by
          have h := hvalid
          rw [hmin, hmax] at h
          simpa [boundsConsistent] using h
        simp [Characteristic.deserialize, Characteristic.serialize,
          mkCharacteristic, Characteristic.setProps, hmerge, hmin, hmax,
          not_lt.2 hle, Except.map]
  · intro m M hmin hmax hlt
    constructor
    · simp [Characteristic.deserialize, Characteristic.serialize,
        mkCharacteristic, Characteristic.setProps, hmerge, hmin, hmax, hlt,
        Except.map]
    · simp [mkCharacteristic, Characteristic.setProps, hmerge, hmin, hmax, hlt]

/-- Witness for C9: a valid bounded characteristic with a set value
round-trips; the same shape with inverted bounds fails construction and
deserialization with the same error. -/
theorem serialize_deserialize_roundtrip_witness :
    (∃ c', Characteristic.deserialize intBoundedValued.serialize = .ok c' ∧
      c'.displayName = intBoundedValued.displayName ∧
      c'.UUID = intBoundedValued.UUID ∧
      c'.props = intBoundedValued.props ∧
      c'.value = intBoundedValued.value ∧
      c'.eventOnlyCharacteristic = intBoundedValued.eventOnlyCharacteristic) ∧
    (Characteristic.deserialize badBounds.serialize =
        .error (setPropsErrorMessage badBounds.displayName) ∧
      mkCharacteristic badBounds.displayName badBounds.UUID (some badBounds.props) =
        .error (setPropsErrorMessage badBounds.displayName)) :=
  ⟨(serialize_deserialize_roundtrip intBoundedValued).1 (by decide),
   (serialize_deserialize_roundtrip badBounds).2 10 5 rfl rfl (by norm_num)⟩


/-! ## Claim about numeric range coercion -/

/-- Quantization at step `1` is truncation toward zero. -/
theorem quantize_one (x : ℚ) : quantize x 1 = (jsTrunc x : ℚ) := by
  simp [quantize, jsModQ]

/-- An integral lower bound survives truncation toward zero. -/
theorem le_jsTrunc {m x : ℚ} (hm : m.den = 1) (h : m ≤ x) :
    m ≤ (jsTrunc x : ℚ) := by
  have hmz : (m.num : ℚ) = m := (Rat.den_eq_one_iff m).mp hm
  unfold jsTrunc
  split_ifs with hx
  · rw [← hmz]
    exact_mod_cast Int.le_floor.mpr (by rw [hmz]; exact h)
  · exact le_trans h (Int.le_ceil x)

/-- An integral upper bound survives truncation toward zero. -/
theorem jsTrunc_le {x M : ℚ} (hM : M.den = 1) (h : x ≤ M) :
    (jsTrunc x : ℚ) ≤ M := by
  have hMz : (M.num : ℚ) = M := (Rat.den_eq_one_iff M).mp hM
  unfold jsTrunc
  split_ifs with hx
  · exact le_trans (Int.floor_le x) h
  · rw [← hMz]
    exact_mod_cast Int.ceil_le.mpr (by rw [hMz]; exact h)

/-- `clampMinJS` on a number input is the rational clamp. -/
theorem clampMinJS_num (lo : Option ℚ) (q : ℚ) :
    clampMinJS lo (.num q) = .num (clampMinQ lo q) := by
  cases lo with
  | none => rfl
  | some m => by_cases h : q < m <;> simp [clampMinJS, clampMinQ, jsLtNum, jsToNum, h]

/-- `clampMaxJS` on a number input is the rational clamp. -/
theorem clampMaxJS_num (hi : Option ℚ) (q : ℚ) :
    clampMaxJS hi (.num q) = .num (clampMaxQ hi q) := by
  cases hi with
  | none => rfl
  | some M => by_cases h : M < q <;> simp [clampMaxJS, clampMaxQ, jsGtNum, jsToNum, h]

/-- The two-sided clamp lands inside any present bound, provided the
bounds are mutually consistent. -/
theorem clampQ_mem (lo hi : Option ℚ) (q : ℚ)
    (hc : boundsConsistent lo hi = true) :
    (∀ m, lo = some m → m ≤ clampMaxQ hi (clampMinQ lo q)) ∧
    (∀ M, hi = some M → clampMaxQ hi (clampMinQ lo q) ≤ M) := by
  cases lo with
  | none =>
    constructor
    · intro m hm
      cases hm
    · intro M hM
      subst hM
      simp only [clampMinQ, clampMaxQ]
      split_ifs <;> linarith
  | some m0 =>
    cases hi with
    | none =>
      constructor
      · intro m hm
        injection hm with hm
        subst hm
        simp only [clampMinQ, clampMaxQ]
        split_ifs <;> linarith
      · intro M hM
        cases hM
    | some M0 =>
      have hmM : m0 ≤ M0 := by simpa [boundsConsistent] using hc
      constructor
      · intro m hm
        injection hm with hm
        subst hm
        simp only [clampMinQ, clampMaxQ]
        split_ifs <;> linarith
      · intro M hM
        injection hM with hM
        subst hM
        simp only [clampMinQ, clampMaxQ]
        split_ifs <;> linarith

/-- Range conformance of `numericCore` on a number input, with no
`validValues` list and no `validValueRanges` pair, when no step is in
effect, or the effective step is `1` and the effective bounds are
integral. -/
theorem numericCore_num_in_range
    (minR maxR stepR : Option ℚ) (q : ℚ) (prev : JSValue)
    (hstep : stepR = none ∨
      (stepR = some 1 ∧ optIntegral minR = true ∧ optIntegral maxR = true))
    (hmM : boundsConsistent minR maxR = true) :
    ∃ r : ℚ, numericCore minR maxR stepR none none (.num q) prev = .num r ∧
      (∀ m, minR = some m → m ≤ r) ∧
      (∀ M, maxR = some M → r ≤ M) := by
  obtain ⟨hlo, hhi⟩ := clampQ_mem minR maxR q hmM
  rcases hstep with h | ⟨h1, hmi, hma⟩
  · refine ⟨clampMaxQ maxR (clampMinQ minR q), ?_, hlo, hhi⟩
    simp [numericCore, h, clampMinJS_num, clampMaxJS_num]
  · refine ⟨(jsTrunc (clampMaxQ maxR (clampMinQ minR q)) : ℚ), ?_, ?_, ?_⟩
    · simp [numericCore, h1, clampMinJS_num, clampMaxJS_num, jsParseFloat,
        quantize_one]
    · intro m hm
      have hden : m.den = 1 := by
        rw [hm] at hmi
        simpa [optIntegral] using hmi
      exact le_jsTrunc hden (hlo m hm)
    · intro M hM
      have hden : M.den = 1 := by
        rw [hM] at hma
        simpa [optIntegral] using hma
      exact jsTrunc_le hden (hhi M hM)

/-- **C1 counterexample.** A boolean input bypasses the range logic:
with declared bounds `[5, 10]` on an `int` characteristic, the input
`false` coerces to `0`, which lies below the effective minimum `5`
(the source returns `0`/`1` immediately, before the clamp). -/
theorem validateValue_bool_input_escapes_bounds :
    validateValue intBounded.props (.bool false) .null = .num 0 ∧
    resolvedMin Formats.int intBounded.props = some 5 ∧
    ¬ ((5 : ℚ) ≤ 0) := by
  refine ⟨by decide, by decide, by norm_num⟩

/-- **C1 (amended).** For every numeric format, a number input, with no
`validValues` list and no `validValueRanges` pair declared, consistent
effective bounds, and either no effective step or the (default) step `1`
with integral effective bounds, the coerced value lies within the
effective `[min, max]` interval inclusive.  (As stated the original
claim fails: boolean inputs return `0`/`1` before the range logic — see
the counterexample — and step quantization or the `validValueRanges`
second clamp can likewise leave the `[min, max]` interval.) -/
theorem validateValue_numeric_in_range
    (p : CharacteristicProps) (f : Formats) (q : ℚ) (prev : JSValue)
    (hf : p.format = some f) (hnum : isNumericFormat f = true)
    (hvv : p.validValues = none) (hvr : p.validValueRanges = none)
    (hstep : resolvedStep f p = none ∨
      (resolvedStep f p = some 1 ∧ optIntegral (resolvedMin f p) = true ∧
        optIntegral (resolvedMax f p) = true))
    (hmM : boundsConsistent (resolvedMin f p) (resolvedMax f p) = true) :
    ∃ r : ℚ, validateValue p (.num q) prev = .num r ∧
      (∀ m, resolvedMin f p = some m → m ≤ r) ∧
      (∀ M, resolvedMax f p = some M → r ≤ M) := by
  obtain ⟨r, hr, h1, h2⟩ := numericCore_num_in_range (resolvedMin f p)
    (resolvedMax f p) (resolvedStep f p) q prev hstep hmM
  refine ⟨r, ?_, h1, h2⟩
  cases f <;>
    simp_all [validateValue, numericValidate, parseIntIsNaN, isNumericFormat]

/-- Witness for C1 (amended): a uint8 characteristic with declared
bounds `[5, 10]` and the out-of-range input `100`. -/
theorem validateValue_numeric_in_range_witness :
    ∃ r : ℚ, validateValue uint8Bounded.props (.num 100) .null = .num r ∧
      (∀ m, resolvedMin Formats.uint8 uint8Bounded.props = some m → m ≤ r) ∧
      (∀ M, resolvedMax Formats.uint8 uint8Bounded.props = some M → r ≤ M) :=
  validateValue_numeric_in_range uint8Bounded.props Formats.uint8 100 .null
    rfl rfl rfl rfl (Or.inr ⟨by decide, by decide, by decide⟩) (by decide)

end HapNodeJS
